import Mathlib

/-!
Shallow embedding of the configuration resolution subsystem of rome-tools
(crates/rome_service/src/configuration/mod.rs and
crates/rome_cli/src/parse_arguments.rs), together with theorems settling
the frozen claims about it.

Machine integers (`u8`, `u16`, `NonZeroU64`) are modelled as `Nat`
(with a positivity subtype for `NonZeroU64`); no arithmetic is performed
on them, so overflow is irrelevant.  File contents are modelled at the
JSON-value level: the external JSON parser/pretty-printer pair is
semantics-preserving per the spec, so a file's text is identified with
the JSON value it denotes.
-/

set_option autoImplicit false

namespace Rome

/-- JSON-like values, the denotation of on-disk configuration text.
Numbers are restricted to naturals because every numeric field of the
configuration (`maxSize`, `indentSize`, `lineWidth`) is unsigned. -/
inductive Json where
  | null
  | bool (b : Bool)
  | num (n : Nat)
  | str (s : String)
  | arr (elems : List Json)
  | obj (members : List (String × Json))

/-- `NonZeroU64` from the Rust standard library: a positive natural. -/
def NonZeroU64 : Type := { n : Nat // 0 < n }

instance : DecidableEq NonZeroU64 := fun a b =>
  decidable_of_iff (a.1 = b.1) Subtype.ext_iff.symm

/-- `PlainIndentStyle` (rome_service::configuration::formatter). -/
inductive PlainIndentStyle where
  | tab
  | space
deriving DecidableEq

/-- `IndentStyle` from rome_formatter: the CLI flag value; the `space`
variant embeds a width. -/
inductive IndentStyle where
  | tab
  | space (size : Nat)
deriving DecidableEq

/-- Modelled from the spec: quote-property policy of the JavaScript
formatter block (the concrete enum lives outside the given sources). -/
inductive QuoteProperties where
  | asNeeded
  | preserve
deriving DecidableEq

/-- Modelled from the spec: quote style of the JavaScript formatter block. -/
inductive QuoteStyle where
  | double
  | single
deriving DecidableEq

/-- Modelled from the spec: trailing-comma policy of the JavaScript
formatter block. -/
inductive TrailingComma where
  | all
  | es5
  | omitAll
deriving DecidableEq

/-- Modelled from the spec: semicolon policy of the JavaScript formatter
block. -/
inductive Semicolons where
  | always
  | asNeeded
deriving DecidableEq

/-- Modelled from the spec: `FormatterConfiguration`
(rome_service::configuration::formatter is not among the given sources);
fields are those used by `mod.rs` (`enabled`) and by
`apply_format_settings_from_cli` (`indent_style`, `indent_size`,
`line_width`). -/
structure FormatterConfiguration where
  enabled : Bool
  indent_style : PlainIndentStyle
  indent_size : Nat
  line_width : Nat
deriving DecidableEq

/-- Modelled from the spec: the default formatter block (tool defaults). -/
def FormatterConfiguration.default : FormatterConfiguration :=
  { enabled := true, indent_style := PlainIndentStyle.tab, indent_size := 2, line_width := 80 }

/-- Modelled from the spec: `JavascriptFormatter`, the language-specific
formatter sub-block with its four stylistic flags. -/
structure JavascriptFormatter where
  quote_properties : QuoteProperties
  quote_style : QuoteStyle
  trailing_comma : TrailingComma
  semicolons : Semicolons
deriving DecidableEq

/-- Modelled from the spec: default JavaScript formatter sub-block. -/
def JavascriptFormatter.default : JavascriptFormatter :=
  { quote_properties := QuoteProperties.asNeeded, quote_style := QuoteStyle.double,
    trailing_comma := TrailingComma.all, semicolons := Semicolons.always }

/-- Modelled from the spec: `JavascriptConfiguration`, the per-language
block holding an optional formatter sub-block. -/
structure JavascriptConfiguration where
  formatter : Option JavascriptFormatter
deriving DecidableEq

/-- Modelled from the spec: default JavaScript block (no sub-blocks). -/
def JavascriptConfiguration.default : JavascriptConfiguration :=
  { formatter := none }

/-- Modelled from the spec: `LinterConfiguration`; only its `enabled`
field is visible in the given sources (rule-set contents are an explicit
non-goal of the spec). -/
structure LinterConfiguration where
  enabled : Bool
deriving DecidableEq

/-- Modelled from the spec: default linter block (linter on by default). -/
def LinterConfiguration.default : LinterConfiguration :=
  { enabled := true }

/-- `OrganizeImports` (rome_service::configuration::organize_imports):
`Configuration::default` constructs it with the single field `enabled`. -/
structure OrganizeImports where
  enabled : Bool
deriving DecidableEq

/-- `FilesConfiguration` from mod.rs: `maxSize` and the ordered
`ignore` set.  The `ignore` index set is represented by its underlying
insertion-ordered duplicate-free list of elements. -/
structure FilesConfiguration where
  max_size : Option NonZeroU64
  ignore : Option (List String)
deriving DecidableEq

/-- Derived `Default` of `FilesConfiguration` (both fields absent). -/
def FilesConfiguration.default : FilesConfiguration :=
  { max_size := none, ignore := none }

/-- `Configuration` from mod.rs: the root record of `rome.json`. -/
structure Configuration where
  schema : Option String
  files : Option FilesConfiguration
  formatter : Option FormatterConfiguration
  organize_imports : Option OrganizeImports
  linter : Option LinterConfiguration
  javascript : Option JavascriptConfiguration
deriving DecidableEq

/-- `Configuration::default` from mod.rs lines 71-85. -/
def Configuration.default : Configuration :=
  { files := none
    linter := some { LinterConfiguration.default with enabled := true }
    organize_imports := some { enabled := false }
    formatter := none
    javascript := none
    schema := none }

/-- `Configuration::is_formatter_disabled` from mod.rs. -/
def Configuration.is_formatter_disabled (c : Configuration) : Bool :=
  (c.formatter.map fun f => !f.enabled).getD false

/-- `Configuration::is_linter_disabled` from mod.rs. -/
def Configuration.is_linter_disabled (c : Configuration) : Bool :=
  (c.linter.map fun f => !f.enabled).getD false

/-- `Configuration::is_organize_imports_disabled` from mod.rs. -/
def Configuration.is_organize_imports_disabled (c : Configuration) : Bool :=
  (c.organize_imports.map fun f => !f.enabled).getD false

/-- `Configuration::KNOWN_KEYS` from mod.rs lines 88-95. -/
def configurationKnownKeys : List String :=
  ["files", "linter", "formatter", "javascript", "$schema", "organizeImports"]

/-- `FilesConfiguration::KNOWN_KEYS` from mod.rs line 135. -/
def filesConfigurationKnownKeys : List String :=
  ["maxSize", "ignore"]

/-! ## The ordered-set codec (mod.rs lines 301-363) -/

/-- `IndexSet::insert` on the underlying insertion-ordered list: a later
duplicate insertion is a no-op, a fresh element goes to the back. -/
def indexSetInsert (s : List String) (x : String) : List String :=
  if x ∈ s then s else s ++ [x]

/-- Diagnostics of the strict deserializer (rome_deserialize is not among
the given sources; the diagnostic shapes follow the spec's taxonomy:
UnknownKey and TypeMismatch carry the offending key). -/
inductive DeserializationDiagnostic where
  | unknownKey (key : String)
  | typeMismatch (key : String)
deriving DecidableEq

/-- The element loop of `IndexVisitor::visit_seq` (mod.rs lines 328-339):
each sequence element must be a string and is inserted into the
accumulated index set. -/
def visitSeqElements : List Json → List String → Except DeserializationDiagnostic (List String)
  | [], acc => Except.ok acc
  | Json.str s :: rest, acc => visitSeqElements rest (indexSetInsert acc s)
  | _ :: _, _ => Except.error (DeserializationDiagnostic.typeMismatch "ignore")

/-- `deserialize_set_of_strings` from mod.rs lines 302-343: only a
sequence is accepted (the visitor implements `visit_seq` alone); its
elements are inserted into an order-preserving unique set. -/
def deserialize_set_of_strings (j : Json) : Except DeserializationDiagnostic (Option (List String)) :=
  match j with
  | Json.arr elems => (visitSeqElements elems []).map some
  | _ => Except.error (DeserializationDiagnostic.typeMismatch "ignore")

/-- `serialize_set_of_strings` from mod.rs lines 345-363: a present set
is emitted as a sequence in iteration order, an absent value as the
explicit absent marker. -/
def serialize_set_of_strings (set_of_strings : Option (List String)) : Json :=
  match set_of_strings with
  | some s => Json.arr (s.map Json.str)
  | none => Json.null

/-- The `ignore` field codec at field level: `skip_serializing_if =
"Option::is_none"` (mod.rs line 127) omits the member entirely when the
value is unset. -/
def serialize_ignore_field (o : Option (List String)) : Option Json :=
  match o with
  | some s => some (serialize_set_of_strings (some s))
  | none => none

/-- The `ignore` field codec at field level: under `#[serde(default)]`
(mod.rs line 118) an absent member leaves the field at its default
`none`; a present member goes through `deserialize_set_of_strings`. -/
def deserialize_ignore_field (o : Option Json) : Except DeserializationDiagnostic (Option (List String)) :=
  match o with
  | none => Except.ok none
  | some j => deserialize_set_of_strings j

/-- Written from the spec's words, for comparison with the codec from the
source: keep each element's first occurrence, drop later duplicates
("later duplicate insertions are no-ops, first-seen order retained"). -/
def firstSeen : List String → List String
  | [] => []
  | a :: xs => a :: firstSeen (xs.filter fun x => x != a)
termination_by l => l.length
decreasing_by
  exact Nat.lt_succ_of_le (List.length_filter_le _ _)

/-! ## The strict deserializer

`load_config` hands the file text to
`rome_deserialize::json::deserialize_from_json::<Configuration>` (mod.rs
line 211); that crate and the local `parse` module are not among the
given sources.  Modelled from the spec: every record enforces the closed
key set recorded in the source's `KNOWN_KEYS` constants and the serde
attributes (`deny_unknown_fields`, `rename_all = "camelCase"`, the
`$schema` rename), and diagnostics are collected rather than aborting at
the first error; the deserializer starts from the record's default value
(hence a missing file behaves like an empty configuration). -/

/-- Processing of one member of the `files` record: dispatch on the key
per `FilesConfiguration`'s field names, returning the updated record and
any diagnostics this member caused. -/
def filesKey (fc : FilesConfiguration) (k : String) (v : Json) :
    FilesConfiguration × List DeserializationDiagnostic :=
  if k = "maxSize" then
    match v with
    | Json.null => ({ fc with max_size := none }, [])
    | Json.num n =>
        if h : 0 < n then ({ fc with max_size := some ⟨n, h⟩ }, [])
        else (fc, [DeserializationDiagnostic.typeMismatch "maxSize"])
    | _ => (fc, [DeserializationDiagnostic.typeMismatch "maxSize"])
  else if k = "ignore" then
    match deserialize_set_of_strings v with
    | Except.ok s => ({ fc with ignore := s }, [])
    | Except.error d => (fc, [d])
  else (fc, [DeserializationDiagnostic.unknownKey k])

/-- Fold step over the members of the `files` record. -/
def filesStep (acc : FilesConfiguration × List DeserializationDiagnostic)
    (kv : String × Json) : FilesConfiguration × List DeserializationDiagnostic :=
  let r := filesKey acc.1 kv.1 kv.2
  (r.1, acc.2 ++ r.2)

/-- Strict deserialization of the `files` record. -/
def deserializeFilesConfiguration (j : Json) :
    FilesConfiguration × List DeserializationDiagnostic :=
  match j with
  | Json.obj kvs => kvs.foldl filesStep (FilesConfiguration.default, [])
  | _ => (FilesConfiguration.default, [DeserializationDiagnostic.typeMismatch "files"])

/-- Processing of one member of the `formatter` record. -/
def formatterKey (f : FormatterConfiguration) (k : String) (v : Json) :
    FormatterConfiguration × List DeserializationDiagnostic :=
  if k = "enabled" then
    match v with
    | Json.bool b => ({ f with enabled := b }, [])
    | _ => (f, [DeserializationDiagnostic.typeMismatch "enabled"])
  else if k = "indentStyle" then
    match v with
    | Json.str "tab" => ({ f with indent_style := PlainIndentStyle.tab }, [])
    | Json.str "space" => ({ f with indent_style := PlainIndentStyle.space }, [])
    | _ => (f, [DeserializationDiagnostic.typeMismatch "indentStyle"])
  else if k = "indentSize" then
    match v with
    | Json.num n => ({ f with indent_size := n }, [])
    | _ => (f, [DeserializationDiagnostic.typeMismatch "indentSize"])
  else if k = "lineWidth" then
    match v with
    | Json.num n => ({ f with line_width := n }, [])
    | _ => (f, [DeserializationDiagnostic.typeMismatch "lineWidth"])
  else (f, [DeserializationDiagnostic.unknownKey k])

/-- Fold step over the members of the `formatter` record. -/
def formatterStep (acc : FormatterConfiguration × List DeserializationDiagnostic)
    (kv : String × Json) : FormatterConfiguration × List DeserializationDiagnostic :=
  let r := formatterKey acc.1 kv.1 kv.2
  (r.1, acc.2 ++ r.2)

/-- Strict deserialization of the `formatter` record. -/
def deserializeFormatterConfiguration (j : Json) :
    FormatterConfiguration × List DeserializationDiagnostic :=
  match j with
  | Json.obj kvs => kvs.foldl formatterStep (FormatterConfiguration.default, [])
  | _ => (FormatterConfiguration.default, [DeserializationDiagnostic.typeMismatch "formatter"])

/-- Processing of one member of the `linter` record. -/
def linterKey (l : LinterConfiguration) (k : String) (v : Json) :
    LinterConfiguration × List DeserializationDiagnostic :=
  if k = "enabled" then
    match v with
    | Json.bool b => ({ l with enabled := b }, [])
    | _ => (l, [DeserializationDiagnostic.typeMismatch "enabled"])
  else (l, [DeserializationDiagnostic.unknownKey k])

/-- Fold step over the members of the `linter` record. -/
def linterStep (acc : LinterConfiguration × List DeserializationDiagnostic)
    (kv : String × Json) : LinterConfiguration × List DeserializationDiagnostic :=
  let r := linterKey acc.1 kv.1 kv.2
  (r.1, acc.2 ++ r.2)

/-- Strict deserialization of the `linter` record. -/
def deserializeLinterConfiguration (j : Json) :
    LinterConfiguration × List DeserializationDiagnostic :=
  match j with
  | Json.obj kvs => kvs.foldl linterStep (LinterConfiguration.default, [])
  | _ => (LinterConfiguration.default, [DeserializationDiagnostic.typeMismatch "linter"])

/-- Processing of one member of the `organizeImports` record. -/
def organizeImportsKey (o : OrganizeImports) (k : String) (v : Json) :
    OrganizeImports × List DeserializationDiagnostic :=
  if k = "enabled" then
    match v with
    | Json.bool b => ({ o with enabled := b }, [])
    | _ => (o, [DeserializationDiagnostic.typeMismatch "enabled"])
  else (o, [DeserializationDiagnostic.unknownKey k])

/-- Fold step over the members of the `organizeImports` record. -/
def organizeImportsStep (acc : OrganizeImports × List DeserializationDiagnostic)
    (kv : String × Json) : OrganizeImports × List DeserializationDiagnostic :=
  let r := organizeImportsKey acc.1 kv.1 kv.2
  (r.1, acc.2 ++ r.2)

/-- Strict deserialization of the `organizeImports` record. -/
def deserializeOrganizeImports (j : Json) :
    OrganizeImports × List DeserializationDiagnostic :=
  match j with
  | Json.obj kvs => kvs.foldl organizeImportsStep ({ enabled := false }, [])
  | _ => ({ enabled := false }, [DeserializationDiagnostic.typeMismatch "organizeImports"])

/-- Processing of one member of the JavaScript formatter sub-record. -/
def javascriptFormatterKey (f : JavascriptFormatter) (k : String) (v : Json) :
    JavascriptFormatter × List DeserializationDiagnostic :=
  if k = "quoteProperties" then
    match v with
    | Json.str "asNeeded" => ({ f with quote_properties := QuoteProperties.asNeeded }, [])
    | Json.str "preserve" => ({ f with quote_properties := QuoteProperties.preserve }, [])
    | _ => (f, [DeserializationDiagnostic.typeMismatch "quoteProperties"])
  else if k = "quoteStyle" then
    match v with
    | Json.str "double" => ({ f with quote_style := QuoteStyle.double }, [])
    | Json.str "single" => ({ f with quote_style := QuoteStyle.single }, [])
    | _ => (f, [DeserializationDiagnostic.typeMismatch "quoteStyle"])
  else if k = "trailingComma" then
    match v with
    | Json.str "all" => ({ f with trailing_comma := TrailingComma.all }, [])
    | Json.str "es5" => ({ f with trailing_comma := TrailingComma.es5 }, [])
    | Json.str "none" => ({ f with trailing_comma := TrailingComma.omitAll }, [])
    | _ => (f, [DeserializationDiagnostic.typeMismatch "trailingComma"])
  else if k = "semicolons" then
    match v with
    | Json.str "always" => ({ f with semicolons := Semicolons.always }, [])
    | Json.str "asNeeded" => ({ f with semicolons := Semicolons.asNeeded }, [])
    | _ => (f, [DeserializationDiagnostic.typeMismatch "semicolons"])
  else (f, [DeserializationDiagnostic.unknownKey k])

/-- Fold step over the members of the JavaScript formatter sub-record. -/
def javascriptFormatterStep (acc : JavascriptFormatter × List DeserializationDiagnostic)
    (kv : String × Json) : JavascriptFormatter × List DeserializationDiagnostic :=
  let r := javascriptFormatterKey acc.1 kv.1 kv.2
  (r.1, acc.2 ++ r.2)

/-- Strict deserialization of the JavaScript formatter sub-record. -/
def deserializeJavascriptFormatter (j : Json) :
    JavascriptFormatter × List DeserializationDiagnostic :=
  match j with
  | Json.obj kvs => kvs.foldl javascriptFormatterStep (JavascriptFormatter.default, [])
  | _ => (JavascriptFormatter.default, [DeserializationDiagnostic.typeMismatch "formatter"])

/-- Processing of one member of the `javascript` record. -/
def javascriptKey (jc : JavascriptConfiguration) (k : String) (v : Json) :
    JavascriptConfiguration × List DeserializationDiagnostic :=
  if k = "formatter" then
    let r := deserializeJavascriptFormatter v
    ({ jc with formatter := some r.1 }, r.2)
  else (jc, [DeserializationDiagnostic.unknownKey k])

/-- Fold step over the members of the `javascript` record. -/
def javascriptStep (acc : JavascriptConfiguration × List DeserializationDiagnostic)
    (kv : String × Json) : JavascriptConfiguration × List DeserializationDiagnostic :=
  let r := javascriptKey acc.1 kv.1 kv.2
  (r.1, acc.2 ++ r.2)

/-- Strict deserialization of the `javascript` record. -/
def deserializeJavascriptConfiguration (j : Json) :
    JavascriptConfiguration × List DeserializationDiagnostic :=
  match j with
  | Json.obj kvs => kvs.foldl javascriptStep (JavascriptConfiguration.default, [])
  | _ => (JavascriptConfiguration.default, [DeserializationDiagnostic.typeMismatch "javascript"])

/-- Processing of one top-level member of the configuration object:
dispatch on the key per `Configuration`'s field set (the source's
`KNOWN_KEYS`); any other key is rejected with an unknown-key diagnostic
(serde `deny_unknown_fields`, mod.rs line 44). -/
def configurationKey (c : Configuration) (k : String) (v : Json) :
    Configuration × List DeserializationDiagnostic :=
  if k = "$schema" then
    match v with
    | Json.str s => ({ c with schema := some s }, [])
    | _ => (c, [DeserializationDiagnostic.typeMismatch "$schema"])
  else if k = "files" then
    let r := deserializeFilesConfiguration v
    ({ c with files := some r.1 }, r.2)
  else if k = "formatter" then
    let r := deserializeFormatterConfiguration v
    ({ c with formatter := some r.1 }, r.2)
  else if k = "organizeImports" then
    let r := deserializeOrganizeImports v
    ({ c with organize_imports := some r.1 }, r.2)
  else if k = "linter" then
    let r := deserializeLinterConfiguration v
    ({ c with linter := some r.1 }, r.2)
  else if k = "javascript" then
    let r := deserializeJavascriptConfiguration v
    ({ c with javascript := some r.1 }, r.2)
  else (c, [DeserializationDiagnostic.unknownKey k])

/-- Fold step over the top-level members of the configuration object. -/
def configurationStep (acc : Configuration × List DeserializationDiagnostic)
    (kv : String × Json) : Configuration × List DeserializationDiagnostic :=
  let r := configurationKey acc.1 kv.1 kv.2
  (r.1, acc.2 ++ r.2)

/-- `Deserialized<Configuration>`: the parsed value together with the
collected diagnostics (spec section 3). -/
structure Deserialized where
  value : Configuration
  diagnostics : List DeserializationDiagnostic
deriving DecidableEq

/-- Whether deserialization failed: at least one diagnostic was emitted. -/
def Deserialized.has_errors (d : Deserialized) : Bool :=
  !d.diagnostics.isEmpty

/-- Strict deserialization of a whole configuration document. -/
def deserializeConfiguration (j : Json) : Deserialized :=
  match j with
  | Json.obj kvs =>
      let r := kvs.foldl configurationStep (Configuration.default, [])
      { value := r.1, diagnostics := r.2 }
  | _ => { value := Configuration.default
           diagnostics := [DeserializationDiagnostic.typeMismatch "$root"] }

/-! ## Serialization

Modelled from the serde derive attributes in mod.rs: members are emitted
in field declaration order with camelCase names, `Option` fields marked
`skip_serializing_if = "Option::is_none"` are omitted when unset, and
`maxSize` (not so marked) is always emitted, as the absent marker when
unset. -/

/-- An optional object member: present values yield one member, `none`
yields nothing (serde `skip_serializing_if = "Option::is_none"`). -/
def optMember (k : String) : Option Json → List (String × Json)
  | some j => [(k, j)]
  | none => []

/-- Serialization of the `files` record. -/
def serializeFilesConfiguration (fc : FilesConfiguration) : Json :=
  Json.obj
    ([("maxSize", match fc.max_size with
        | some n => Json.num n.1
        | none => Json.null)]
      ++ optMember "ignore" (serialize_ignore_field fc.ignore))

/-- Serialization of the `formatter` record. -/
def serializeFormatterConfiguration (f : FormatterConfiguration) : Json :=
  Json.obj
    [("enabled", Json.bool f.enabled),
     ("indentStyle", Json.str (match f.indent_style with
        | PlainIndentStyle.tab => "tab"
        | PlainIndentStyle.space => "space")),
     ("indentSize", Json.num f.indent_size),
     ("lineWidth", Json.num f.line_width)]

/-- Serialization of the `linter` record. -/
def serializeLinterConfiguration (l : LinterConfiguration) : Json :=
  Json.obj [("enabled", Json.bool l.enabled)]

/-- Serialization of the `organizeImports` record. -/
def serializeOrganizeImports (o : OrganizeImports) : Json :=
  Json.obj [("enabled", Json.bool o.enabled)]

/-- Serialization of the JavaScript formatter sub-record. -/
def serializeJavascriptFormatter (f : JavascriptFormatter) : Json :=
  Json.obj
    [("quoteProperties", Json.str (match f.quote_properties with
        | QuoteProperties.asNeeded => "asNeeded"
        | QuoteProperties.preserve => "preserve")),
     ("quoteStyle", Json.str (match f.quote_style with
        | QuoteStyle.double => "double"
        | QuoteStyle.single => "single")),
     ("trailingComma", Json.str (match f.trailing_comma with
        | TrailingComma.all => "all"
        | TrailingComma.es5 => "es5"
        | TrailingComma.omitAll => "none")),
     ("semicolons", Json.str (match f.semicolons with
        | Semicolons.always => "always"
        | Semicolons.asNeeded => "asNeeded"))]

/-- Serialization of the `javascript` record. -/
def serializeJavascriptConfiguration (jc : JavascriptConfiguration) : Json :=
  Json.obj (optMember "formatter" (jc.formatter.map serializeJavascriptFormatter))

/-- Serialization of the root configuration record, in field declaration
order, omitting every unset optional sub-record. -/
def serializeConfiguration (c : Configuration) : Json :=
  Json.obj
    (optMember "$schema" (c.schema.map Json.str)
      ++ optMember "files" (c.files.map serializeFilesConfiguration)
      ++ optMember "formatter" (c.formatter.map serializeFormatterConfiguration)
      ++ optMember "organizeImports" (c.organize_imports.map serializeOrganizeImports)
      ++ optMember "linter" (c.linter.map serializeLinterConfiguration)
      ++ optMember "javascript" (c.javascript.map serializeJavascriptConfiguration))

/-! ## The config discovery engine (mod.rs lines 138-252)

Paths are modelled as lists of components; `parent` drops the last
component (and the empty path has no parent), `join` appends one. -/

/-- `std::io::ErrorKind`, restricted to the kinds the code inspects plus
representatives of "any other kind". -/
inductive ErrorKind where
  | notFound
  | permissionDenied
  | alreadyExists
  | other
deriving DecidableEq

/-- `ConfigurationDiagnostic` constructors used in mod.rs. -/
inductive ConfigurationDiagnostic where
  | alreadyExists
  | serializationError
deriving DecidableEq

/-- `WorkspaceError`, restricted to the variants produced in mod.rs:
`cant_read_file` carries the displayed path. -/
inductive WorkspaceError where
  | cantReadFile (path : List String)
  | configuration (d : ConfigurationDiagnostic)
deriving DecidableEq

/-- `ConfigurationBasePath` from mod.rs lines 144-154. -/
inductive ConfigurationBasePath where
  | none
  | lsp (path : List String)
  | fromUser (path : List String)
deriving DecidableEq

/-- `ConfigurationBasePath::is_from_user` from mod.rs lines 156-160. -/
def ConfigurationBasePath.is_from_user : ConfigurationBasePath → Bool
  | ConfigurationBasePath.fromUser _ => true
  | _ => false

/-- Outcome of `FileSystem::open_with_options` in read mode followed by
`read_to_string`: the open either fails with an I/O error kind, or
succeeds and the subsequent read yields the contents or fails. -/
inductive OpenOutcome where
  | opened (read_result : Except Unit Json)
  | failed (err : ErrorKind)

/-- The file-system collaborator consumed by `load_config`: the
configuration file name, the optional working directory, an open-for-read
operation on full file paths, and the directory test used on parents. -/
structure FileSystem where
  config_name : String
  working_directory : Option (List String)
  open_read : List String → OpenOutcome
  is_dir : List String → Bool

/-- `LoadConfig` from mod.rs line 142. -/
def LoadConfig : Type := Except WorkspaceError (Option Deserialized)

/-- The starting directory resolution of `load_config` (mod.rs lines
177-185): `Lsp`/`FromUser` use their payload, otherwise the working
directory or the empty path. -/
def startDirectory (fs : FileSystem) (base_path : ConfigurationBasePath) : List String :=
  match base_path with
  | ConfigurationBasePath.lsp path => path
  | ConfigurationBasePath.fromUser path => path
  | ConfigurationBasePath.none =>
      match fs.working_directory with
      | some wd => wd
      | Option.none => []

/-- The `loop` of `load_config` (mod.rs lines 194-251), recursing on the
current configuration directory.  On a failed open with a non-`FromUser`
base path, an existing parent directory is tried next; only at the last
directory is the error kind inspected: `FromUser` or a kind other than
`NotFound` is fatal, otherwise the absence of a configuration file is a
success. -/
def loadConfigLoop (fs : FileSystem) (base_path : ConfigurationBasePath)
    (configuration_directory : List String) : LoadConfig :=
  match fs.open_read (configuration_directory ++ [fs.config_name]) with
  | OpenOutcome.opened (Except.error _) =>
      Except.error (WorkspaceError.cantReadFile (configuration_directory ++ [fs.config_name]))
  | OpenOutcome.opened (Except.ok buffer) =>
      Except.ok (some (deserializeConfiguration buffer))
  | OpenOutcome.failed err =>
      if h : base_path.is_from_user = false ∧ configuration_directory ≠ [] ∧
          fs.is_dir configuration_directory.dropLast = true then
        loadConfigLoop fs base_path configuration_directory.dropLast
      else
        if base_path.is_from_user = true ∨ err ≠ ErrorKind.notFound then
          Except.error (WorkspaceError.cantReadFile (configuration_directory ++ [fs.config_name]))
        else
          Except.ok Option.none
termination_by configuration_directory.length
decreasing_by
  simp only [List.length_dropLast]
  have hpos : 0 < configuration_directory.length := List.length_pos.mpr h.2.1
  omega

/-- `load_config` from mod.rs lines 171-252. -/
def load_config (fs : FileSystem) (base_path : ConfigurationBasePath) : LoadConfig :=
  loadConfigLoop fs base_path (startDirectory fs base_path)

/-- The error kind of the last failed open of the discovery search, or
`none` when the search opens a file successfully: the same recursion as
`loadConfigLoop`, exposing the terminal open error for specification. -/
def finalOpenErrorLoop (fs : FileSystem) (base_path : ConfigurationBasePath)
    (configuration_directory : List String) : Option ErrorKind :=
  match fs.open_read (configuration_directory ++ [fs.config_name]) with
  | OpenOutcome.opened _ => Option.none
  | OpenOutcome.failed err =>
      if h : base_path.is_from_user = false ∧ configuration_directory ≠ [] ∧
          fs.is_dir configuration_directory.dropLast = true then
        finalOpenErrorLoop fs base_path configuration_directory.dropLast
      else
        some err
termination_by configuration_directory.length
decreasing_by
  simp only [List.length_dropLast]
  have hpos : 0 < configuration_directory.length := List.length_pos.mpr h.2.1
  omega

/-- The final open error of a whole `load_config` search. -/
def finalOpenError (fs : FileSystem) (base_path : ConfigurationBasePath) : Option ErrorKind :=
  finalOpenErrorLoop fs base_path (startDirectory fs base_path)

/-! ## The config writer (mod.rs lines 254-299) -/

/-- A mutable file store: full path to contents (at the JSON-value
level). -/
def Store : Type := List String → Option Json

/-- Update one path of a store. -/
def storeWrite (store : Store) (p : List String) (j : Json) : Store :=
  fun q => if q = p then some j else store q

/-- The writable file-system collaborator consumed by `create_config`. -/
structure WriteFileSystem where
  config_name : String
  store : Store

/-- The conventional installed-schema probe path of mod.rs line 278. -/
def schemaPath : List String :=
  ["node_modules", "rome", "configuration_schema.json"]

/-- The schema reference string injected by `create_config`. -/
def schemaRef : String := "./node_modules/rome/configuration_schema.json"

/-- `OpenOptions::default().write(true).create_new(true)` against a
store: creating an already existing file fails with `AlreadyExists`. -/
def openCreateNew (store : Store) (p : List String) : Except ErrorKind Unit :=
  if (store p).isSome then Except.error ErrorKind.alreadyExists else Except.ok ()

/-- `create_config` from mod.rs lines 261-299, in state-passing form: the
result and the store after the call.  Serialization cannot fail in the
model, and the external pretty-printing round trip (`parse_json` then
`format_node`) preserves the JSON value, so the written content is the
serialized configuration itself. -/
def create_config (fs : WriteFileSystem) (configuration : Configuration) :
    Except WorkspaceError Unit × WriteFileSystem :=
  let path := [fs.config_name]
  match openCreateNew fs.store path with
  | Except.error err =>
      (Except.error
        (if err = ErrorKind.alreadyExists then
          WorkspaceError.configuration ConfigurationDiagnostic.alreadyExists
        else
          WorkspaceError.cantReadFile path), fs)
  | Except.ok _ =>
      let configuration :=
        if (fs.store schemaPath).isSome then
          { configuration with schema := some schemaRef }
        else configuration
      let contents := serializeConfiguration configuration
      (Except.ok (), { fs with store := storeWrite fs.store path contents })

/-- View of a written store as a read-only file system for `load_config`:
present paths open and read successfully, absent paths fail with
`NotFound`; the working directory is the store root. -/
def readFileSystemOf (fs : WriteFileSystem) : FileSystem :=
  { config_name := fs.config_name
    working_directory := some []
    open_read := fun p =>
      match fs.store p with
      | some j => OpenOutcome.opened (Except.ok j)
      | Option.none => OpenOutcome.failed ErrorKind.notFound
    is_dir := fun _ => false }

/-! ## The CLI override merger (parse_arguments.rs) -/

/-- `CliDiagnostic::parse_error`, naming the offending flag. -/
inductive CliDiagnostic where
  | parseError (flag : String)
deriving DecidableEq

/-- The CLI argument source collaborator: for each recognized flag, the
already-tokenized result of `opt_value_from_str` — either a parse
failure or the optional flag value. -/
structure Args where
  indent_size : Except Unit (Option Nat)
  indent_style : Except Unit (Option IndentStyle)
  line_width : Except Unit (Option Nat)
  quote_properties : Except Unit (Option QuoteProperties)
  quote_style : Except Unit (Option QuoteStyle)
  trailing_comma : Except Unit (Option TrailingComma)
  semicolons : Except Unit (Option Semicolons)
  files_max_size : Except Unit (Option NonZeroU64)

/-- Modelled from the spec: parsing of the `--indent-style` flag value by
the external rome_formatter `FromStr` — selecting "space" embeds the
default numeric width 2. -/
def parseIndentStyleFlag : String → Option IndentStyle
  | "tab" => some IndentStyle.tab
  | "space" => some (IndentStyle.space 2)
  | _ => Option.none

/-- `apply_format_settings_from_cli` from parse_arguments.rs lines 10-92,
in functional form over the success path: the formatter and javascript
blocks are materialized with `get_or_insert_with` defaults, each present
flag overwrites its field, and the final configuration carries the
updated blocks. -/
def apply_format_settings_from_cli (args : Args) (configuration : Configuration) :
    Except CliDiagnostic Configuration := do
  let formatter := configuration.formatter.getD FormatterConfiguration.default
  let size ← args.indent_size.mapError fun _ => CliDiagnostic.parseError "--indent-size"
  let indent_style ← args.indent_style.mapError fun _ => CliDiagnostic.parseError "--indent-style"
  let line_width ← args.line_width.mapError fun _ => CliDiagnostic.parseError "--line-width"
  let formatter :=
    match indent_style with
    | some IndentStyle.tab => { formatter with indent_style := PlainIndentStyle.tab }
    | some (IndentStyle.space default_size) =>
        { formatter with indent_style := PlainIndentStyle.space,
                         indent_size := size.getD default_size }
    | Option.none => formatter
  let formatter :=
    match line_width with
    | some lw => { formatter with line_width := lw }
    | Option.none => formatter
  let quote_properties ← args.quote_properties.mapError fun _ =>
    CliDiagnostic.parseError "--quote-properties"
  let quote_style ← args.quote_style.mapError fun _ => CliDiagnostic.parseError "--quote-style"
  let trailing_comma ← args.trailing_comma.mapError fun _ =>
    CliDiagnostic.parseError "--trailing-comma"
  let semicolons ← args.semicolons.mapError fun _ => CliDiagnostic.parseError "--semicolons"
  let javascript := configuration.javascript.getD JavascriptConfiguration.default
  let javascript_formatter := javascript.formatter.getD JavascriptFormatter.default
  let javascript_formatter :=
    match quote_properties with
    | some qp => { javascript_formatter with quote_properties := qp }
    | Option.none => javascript_formatter
  let javascript_formatter :=
    match quote_style with
    | some qs => { javascript_formatter with quote_style := qs }
    | Option.none => javascript_formatter
  let javascript_formatter :=
    match trailing_comma with
    | some tc => { javascript_formatter with trailing_comma := tc }
    | Option.none => javascript_formatter
  let javascript_formatter :=
    match semicolons with
    | some sc => { javascript_formatter with semicolons := sc }
    | Option.none => javascript_formatter
  Except.ok { configuration with
    formatter := some formatter,
    javascript := some { javascript with formatter := some javascript_formatter } }

/-- `apply_files_settings_from_cli` from parse_arguments.rs lines 94-109:
the files block is created only when `--files-max-size` is present. -/
def apply_files_settings_from_cli (args : Args) (configuration : Configuration) :
    Except CliDiagnostic Configuration := do
  let files_max_size ← args.files_max_size.mapError fun _ =>
    CliDiagnostic.parseError "--files-max-size"
  match files_max_size with
  | some n =>
      let files := configuration.files.getD FilesConfiguration.default
      Except.ok { configuration with files := some { files with max_size := some n } }
  | Option.none => Except.ok configuration

/-! ## Lemmas about the ordered-set codec -/

theorem visitSeqElements_strings (xs : List String) :
    ∀ acc, visitSeqElements (xs.map Json.str) acc = Except.ok (xs.foldl indexSetInsert acc) := by
  induction xs with
  | nil => intro acc; rfl
  | cons a xs ih => intro acc; simpa [visitSeqElements] using ih (indexSetInsert acc a)

theorem firstSeen_nil : firstSeen [] = [] := by
  rw [firstSeen.eq_def]

theorem firstSeen_cons (a : String) (xs : List String) :
    firstSeen (a :: xs) = a :: firstSeen (xs.filter fun x => x != a) := by
  rw [firstSeen.eq_def]

theorem foldl_indexSetInsert (xs : List String) :
    ∀ acc, xs.foldl indexSetInsert acc =
      acc ++ firstSeen (xs.filter fun x => !(decide (x ∈ acc))) := by
  induction xs with
  | nil => intro acc; simp [firstSeen_nil]
  | cons a xs ih =>
      intro acc
      by_cases ha : a ∈ acc
      · have hins : indexSetInsert acc a = acc := if_pos ha
        simp [List.foldl_cons, hins, ih acc, List.filter_cons, ha]
      · have hins : indexSetInsert acc a = acc ++ [a] := if_neg ha
        have hfil : (xs.filter fun x => !(decide (x ∈ acc ++ [a]))) =
            ((xs.filter fun x => !(decide (x ∈ acc))).filter fun x => x != a) := by
          rw [List.filter_filter]
          apply List.filter_congr
          intro x _
          by_cases hxa : x = a
          · simp [hxa]
          · simp [List.mem_append, hxa]
        simp only [List.foldl_cons, hins, ih (acc ++ [a]), hfil, List.filter_cons, ha]
        simp [firstSeen_cons]

theorem firstSeen_of_nodup (l : List String) (h : l.Nodup) : firstSeen l = l := by
  induction l with
  | nil => exact firstSeen_nil
  | cons a xs ih =>
      rw [firstSeen_cons]
      have hnotmem : a ∉ xs := (List.nodup_cons.mp h).1
      have hfil : (xs.filter fun x => x != a) = xs := by
        apply List.filter_eq_self.mpr
        intro x hx
        simp only [bne_iff_ne, ne_eq, decide_eq_true_eq]
        intro hxa
        exact hnotmem (hxa ▸ hx)
      rw [hfil, ih (List.nodup_cons.mp h).2]

theorem foldl_indexSetInsert_nil (xs : List String) :
    xs.foldl indexSetInsert [] = firstSeen xs := by
  rw [foldl_indexSetInsert]
  simp

/-- C7: the ordered-set codec round-trips: a duplicate-free set
serialized and deserialized comes back with the same membership and
insertion order (the very same list); an unset `None` value round-trips
to `None` at the field level (the member is omitted, not an empty
sequence); and deserializing a sequence with duplicates keeps the first
occurrence of each element in first-seen order, later duplicate
insertions being no-ops. -/
theorem set_codec_round_trip :
    (∀ l : List String, l.Nodup →
      deserialize_set_of_strings (serialize_set_of_strings (some l)) = Except.ok (some l)) ∧
    deserialize_ignore_field (serialize_ignore_field Option.none) = Except.ok Option.none ∧
    (∀ xs : List String,
      deserialize_set_of_strings (Json.arr (xs.map Json.str)) =
        Except.ok (some (firstSeen xs))) := by
  have harr : ∀ xs : List String,
      deserialize_set_of_strings (Json.arr (xs.map Json.str)) =
        Except.ok (some (firstSeen xs)) := by
    intro xs
    simp [deserialize_set_of_strings, visitSeqElements_strings, foldl_indexSetInsert_nil,
      Except.map]
  refine ⟨?_, rfl, harr⟩
  intro l hl
  have := harr l
  rwa [firstSeen_of_nodup l hl] at this

/-- C7 witness: concrete round trips through the codec. -/
theorem set_codec_round_trip_witness :
    (["b", "a"] : List String).Nodup ∧
    deserialize_set_of_strings (serialize_set_of_strings (some ["b", "a"])) =
      Except.ok (some ["b", "a"]) := by
  exact ⟨by decide, set_codec_round_trip.1 ["b", "a"] (by decide)⟩

/-- C10: the default configuration has the linter enabled, organize
imports present but disabled, and no files, formatter, javascript or
schema entries; hence only `is_organize_imports_disabled` reports
`true`. -/
theorem configuration_default_shape :
    Configuration.default.linter = some { enabled := true } ∧
    Configuration.default.organize_imports = some { enabled := false } ∧
    Configuration.default.files = Option.none ∧
    Configuration.default.formatter = Option.none ∧
    Configuration.default.javascript = Option.none ∧
    Configuration.default.schema = Option.none ∧
    Configuration.default.is_linter_disabled = false ∧
    Configuration.default.is_formatter_disabled = false ∧
    Configuration.default.is_organize_imports_disabled = true := by
  refine ⟨rfl, rfl, rfl, rfl, rfl, rfl, rfl, rfl, rfl⟩

/-- C8: creating a configuration over an existing file yields the
distinct already-exists error — not the generic cannot-read-file error —
and leaves the stored contents unchanged. -/
theorem create_config_already_exists (fs : WriteFileSystem) (c : Configuration) (j : Json)
    (h : fs.store [fs.config_name] = some j) :
    (create_config fs c).1 =
      Except.error (WorkspaceError.configuration ConfigurationDiagnostic.alreadyExists) ∧
    (create_config fs c).1 ≠
      Except.error (WorkspaceError.cantReadFile [fs.config_name]) ∧
    (create_config fs c).2.store [fs.config_name] = some j := by
  have hopen : openCreateNew fs.store [fs.config_name] = Except.error ErrorKind.alreadyExists := by
    simp [openCreateNew, h]
  refine ⟨?_, ?_, ?_⟩ <;> simp [create_config, hopen, h]

/-- A store holding one configuration file at the conventional name. -/
def occupiedStore : Store :=
  fun p => if p = ["rome.json"] then some (Json.obj []) else Option.none

/-- A writable file system whose configuration file already exists. -/
def occupiedFileSystem : WriteFileSystem :=
  { config_name := "rome.json", store := occupiedStore }

/-- C8 witness: the occupied store triggers the already-exists error and
keeps its contents. -/
theorem create_config_already_exists_witness :
    (create_config occupiedFileSystem Configuration.default).1 =
      Except.error (WorkspaceError.configuration ConfigurationDiagnostic.alreadyExists) ∧
    (create_config occupiedFileSystem Configuration.default).2.store ["rome.json"] =
      some (Json.obj []) := by
  have h := create_config_already_exists occupiedFileSystem Configuration.default
    (Json.obj []) rfl
  exact ⟨h.1, h.2.2⟩

/-- An argument stream with every recognized flag absent and none
malformed. -/
def noFlagArgs : Args :=
  { indent_size := Except.ok Option.none, indent_style := Except.ok Option.none,
    line_width := Except.ok Option.none, quote_properties := Except.ok Option.none,
    quote_style := Except.ok Option.none, trailing_comma := Except.ok Option.none,
    semicolons := Except.ok Option.none, files_max_size := Except.ok Option.none }

/-- C4: indentation-flag precedence of the CLI merger.  With
`--indent-style space` the embedded width of the flag value is the
default and an explicit `--indent-size` overrides it; `--indent-size`
without `--indent-style` leaves the formatter's indent style and indent
size at their prior values; and parsing the flag text "space" embeds the
default width 2. -/
theorem indent_flags_precedence :
    (∀ (args : Args) (c : Configuration) (f : FormatterConfiguration) (w n : Nat),
      c.formatter = some f →
      args.indent_size = Except.ok (some n) →
      args.indent_style = Except.ok (some (IndentStyle.space w)) →
      args.line_width = Except.ok Option.none →
      args.quote_properties = Except.ok Option.none →
      args.quote_style = Except.ok Option.none →
      args.trailing_comma = Except.ok Option.none →
      args.semicolons = Except.ok Option.none →
      apply_format_settings_from_cli args c = Except.ok { c with
        formatter := some { f with indent_style := PlainIndentStyle.space, indent_size := n },
        javascript := some { c.javascript.getD JavascriptConfiguration.default with
          formatter := some ((c.javascript.getD JavascriptConfiguration.default).formatter.getD
            JavascriptFormatter.default) } }) ∧
    (∀ (args : Args) (c : Configuration) (f : FormatterConfiguration) (w : Nat),
      c.formatter = some f →
      args.indent_size = Except.ok Option.none →
      args.indent_style = Except.ok (some (IndentStyle.space w)) →
      args.line_width = Except.ok Option.none →
      args.quote_properties = Except.ok Option.none →
      args.quote_style = Except.ok Option.none →
      args.trailing_comma = Except.ok Option.none →
      args.semicolons = Except.ok Option.none →
      apply_format_settings_from_cli args c = Except.ok { c with
        formatter := some { f with indent_style := PlainIndentStyle.space, indent_size := w },
        javascript := some { c.javascript.getD JavascriptConfiguration.default with
          formatter := some ((c.javascript.getD JavascriptConfiguration.default).formatter.getD
            JavascriptFormatter.default) } }) ∧
    parseIndentStyleFlag "space" = some (IndentStyle.space 2) ∧
    (∀ (args : Args) (c : Configuration) (f : FormatterConfiguration) (n : Nat),
      c.formatter = some f →
      args.indent_size = Except.ok (some n) →
      args.indent_style = Except.ok Option.none →
      args.line_width = Except.ok Option.none →
      args.quote_properties = Except.ok Option.none →
      args.quote_style = Except.ok Option.none →
      args.trailing_comma = Except.ok Option.none →
      args.semicolons = Except.ok Option.none →
      apply_format_settings_from_cli args c = Except.ok { c with
        formatter := some f,
        javascript := some { c.javascript.getD JavascriptConfiguration.default with
          formatter := some ((c.javascript.getD JavascriptConfiguration.default).formatter.getD
            JavascriptFormatter.default) } }) := by
  refine ⟨?_, ?_, rfl, ?_⟩
  · intro args c f w n h0 h1 h2 h3 h4 h5 h6 h7
    simp [apply_format_settings_from_cli, h0, h1, h2, h3, h4, h5, h6, h7,
      Except.mapError, Bind.bind, Except.bind]
  · intro args c f w h0 h1 h2 h3 h4 h5 h6 h7
    simp [apply_format_settings_from_cli, h0, h1, h2, h3, h4, h5, h6, h7,
      Except.mapError, Bind.bind, Except.bind]
  · intro args c f n h0 h1 h2 h3 h4 h5 h6 h7
    simp [apply_format_settings_from_cli, h0, h1, h2, h3, h4, h5, h6, h7,
      Except.mapError, Bind.bind, Except.bind]

/-- A prior configuration with an existing formatter block to observe
what the merger leaves untouched. -/
def tabbedFormatter : FormatterConfiguration :=
  { enabled := true, indent_style := PlainIndentStyle.tab, indent_size := 7, line_width := 100 }

def tabbedConfiguration : Configuration :=
  { Configuration.default with formatter := some tabbedFormatter }

/-- C4 witness: `--indent-style space` (embedded width 2) together with
`--indent-size 4` yields indent size 4 on a concrete configuration. -/
def spaceAndSizeArgs : Args :=
  { noFlagArgs with
    indent_size := Except.ok (some 4)
    indent_style := Except.ok (some (IndentStyle.space 2)) }

theorem indent_flags_precedence_witness :
    apply_format_settings_from_cli spaceAndSizeArgs tabbedConfiguration =
      Except.ok { tabbedConfiguration with
        formatter := some { tabbedFormatter with
          indent_style := PlainIndentStyle.space
          indent_size := 4 }
        javascript := some { formatter := some JavascriptFormatter.default } } := by
  have h := indent_flags_precedence.1 spaceAndSizeArgs tabbedConfiguration tabbedFormatter
    2 4 rfl rfl rfl rfl rfl rfl rfl rfl
  exact h

/-- A configuration with no optional sub-record set at all. -/
def emptyConfiguration : Configuration :=
  { schema := Option.none, files := Option.none, formatter := Option.none,
    organize_imports := Option.none, linter := Option.none, javascript := Option.none }

/-- C5 counterexample: with every flag absent, the merger still
materializes the formatter and javascript blocks (with their defaults),
so `configuration.formatter` and `configuration.javascript` do NOT
remain `None` — `get_or_insert_with` runs unconditionally, not on first
write. -/
theorem formatter_block_created_without_flags :
    emptyConfiguration.formatter = Option.none ∧
    emptyConfiguration.javascript = Option.none ∧
    apply_format_settings_from_cli noFlagArgs emptyConfiguration =
      Except.ok { emptyConfiguration with
        formatter := some FormatterConfiguration.default,
        javascript := some { formatter := some JavascriptFormatter.default } } := by
  exact ⟨rfl, rfl, rfl⟩

/-- C5 amended: an absent flag leaves the corresponding setting at its
prior (or freshly defaulted) value and the files block is neither
created nor touched without `--files-max-size`; however the formatter
and javascript blocks (and the javascript formatter sub-block) are
materialized with their defaults unconditionally by the format merger,
even when no flag at all is supplied. -/
theorem cli_merge_absent_flags (args : Args) (c : Configuration)
    (h1 : args.indent_size = Except.ok Option.none)
    (h2 : args.indent_style = Except.ok Option.none)
    (h3 : args.line_width = Except.ok Option.none)
    (h4 : args.quote_properties = Except.ok Option.none)
    (h5 : args.quote_style = Except.ok Option.none)
    (h6 : args.trailing_comma = Except.ok Option.none)
    (h7 : args.semicolons = Except.ok Option.none)
    (h8 : args.files_max_size = Except.ok Option.none) :
    apply_format_settings_from_cli args c = Except.ok { c with
      formatter := some (c.formatter.getD FormatterConfiguration.default),
      javascript := some { c.javascript.getD JavascriptConfiguration.default with
        formatter := some ((c.javascript.getD JavascriptConfiguration.default).formatter.getD
          JavascriptFormatter.default) } } ∧
    apply_files_settings_from_cli args c = Except.ok c := by
  constructor
  · simp [apply_format_settings_from_cli, h1, h2, h3, h4, h5, h6, h7,
      Except.mapError, Bind.bind, Except.bind]
  · simp [apply_files_settings_from_cli, h8, Except.mapError, Bind.bind, Except.bind]

/-- C5 amended witness: the all-absent argument stream on the default
configuration. -/
theorem cli_merge_absent_flags_witness :
    apply_format_settings_from_cli noFlagArgs Configuration.default =
      Except.ok { Configuration.default with
        formatter := some FormatterConfiguration.default,
        javascript := some { formatter := some JavascriptFormatter.default } } ∧
    apply_files_settings_from_cli noFlagArgs Configuration.default =
      Except.ok Configuration.default := by
  have h := cli_merge_absent_flags noFlagArgs Configuration.default
    rfl rfl rfl rfl rfl rfl rfl rfl
  exact ⟨h.1, h.2⟩

/-! ## Lemmas about the discovery engine -/

theorem loadConfigLoop_classification (fs : FileSystem) (base_path : ConfigurationBasePath) :
    ∀ (n : Nat) (dir : List String) (err : ErrorKind), dir.length ≤ n →
      finalOpenErrorLoop fs base_path dir = some err →
      if base_path.is_from_user = true ∨ err ≠ ErrorKind.notFound then
        ∃ p, loadConfigLoop fs base_path dir = Except.error (WorkspaceError.cantReadFile p)
      else loadConfigLoop fs base_path dir = Except.ok Option.none := by
  intro n
  induction n with
  | zero =>
      intro dir err hlen hfin
      rw [finalOpenErrorLoop.eq_def] at hfin
      rw [loadConfigLoop.eq_def]
      cases hopen : fs.open_read (dir ++ [fs.config_name]) with
      | opened r =>
          rw [hopen] at hfin
          dsimp only at hfin
          exact Option.noConfusion hfin
      | failed e =>
          rw [hopen] at hfin
          dsimp only at hfin ⊢
          have hcond : ¬(base_path.is_from_user = false ∧ dir ≠ [] ∧
              fs.is_dir dir.dropLast = true) := by
            intro hc
            have hpos : 0 < dir.length := List.length_pos.mpr hc.2.1
            omega
          rw [dif_neg hcond] at hfin ⊢
          have he := Option.some.inj hfin
          subst he
          by_cases hif : base_path.is_from_user = true ∨ e ≠ ErrorKind.notFound
          · rw [if_pos hif, if_pos hif]
            exact ⟨dir ++ [fs.config_name], rfl⟩
          · rw [if_neg hif, if_neg hif]
  | succ n ih =>
      intro dir err hlen hfin
      rw [finalOpenErrorLoop.eq_def] at hfin
      rw [loadConfigLoop.eq_def]
      cases hopen : fs.open_read (dir ++ [fs.config_name]) with
      | opened r =>
          rw [hopen] at hfin
          dsimp only at hfin
          exact Option.noConfusion hfin
      | failed e =>
          rw [hopen] at hfin
          dsimp only at hfin ⊢
          by_cases hcond : base_path.is_from_user = false ∧ dir ≠ [] ∧
              fs.is_dir dir.dropLast = true
          · rw [dif_pos hcond] at hfin ⊢
            have hlen2 : dir.dropLast.length ≤ n := by
              have hpos : 0 < dir.length := List.length_pos.mpr hcond.2.1
              simp only [List.length_dropLast]
              omega
            exact ih dir.dropLast err hlen2 hfin
          · rw [dif_neg hcond] at hfin ⊢
            have he := Option.some.inj hfin
            subst he
            by_cases hif : base_path.is_from_user = true ∨ e ≠ ErrorKind.notFound
            · rw [if_pos hif, if_pos hif]
              exact ⟨dir ++ [fs.config_name], rfl⟩
            · rw [if_neg hif, if_neg hif]

/-- C1: when the search terminates without a successful open, the result
is the fatal cannot-read-file error exactly when the base path is
`FromUser` or the final open error's kind is not `NotFound`; otherwise
the result is the successful "no configuration found". -/
theorem load_config_failure_classification (fs : FileSystem)
    (base_path : ConfigurationBasePath) (err : ErrorKind)
    (hterm : finalOpenError fs base_path = some err) :
    ((∃ p, load_config fs base_path = Except.error (WorkspaceError.cantReadFile p)) ↔
      (base_path.is_from_user = true ∨ err ≠ ErrorKind.notFound)) ∧
    (load_config fs base_path = Except.ok Option.none ↔
      (base_path.is_from_user = false ∧ err = ErrorKind.notFound)) := by
  have h := loadConfigLoop_classification fs base_path (startDirectory fs base_path).length
    (startDirectory fs base_path) err le_rfl hterm
  show ((∃ p, loadConfigLoop fs base_path (startDirectory fs base_path) =
      Except.error (WorkspaceError.cantReadFile p)) ↔ _) ∧
    (loadConfigLoop fs base_path (startDirectory fs base_path) = Except.ok Option.none ↔ _)
  by_cases hc : base_path.is_from_user = true ∨ err ≠ ErrorKind.notFound
  · rw [if_pos hc] at h
    obtain ⟨p, hp⟩ := h
    refine ⟨⟨fun _ => hc, fun _ => ⟨p, hp⟩⟩, ?_, ?_⟩
    · intro hok
      rw [hp] at hok
      cases hok
    · rintro ⟨hfu, hnf⟩
      rcases hc with hc | hc
      · rw [hfu] at hc
        cases hc
      · exact absurd hnf hc
  · rw [if_neg hc] at h
    push_neg at hc
    obtain ⟨hfu, hnf⟩ := hc
    have hfu2 : base_path.is_from_user = false := by
      revert hfu
      cases base_path.is_from_user <;> simp
    refine ⟨⟨?_, ?_⟩, fun _ => ⟨hfu2, hnf⟩, fun _ => h⟩
    · rintro ⟨p, hp⟩
      rw [hp] at h
      cases h
    · rintro (h1 | h1)
      · exact absurd h1 hfu
      · exact absurd hnf h1

/-- A file system with no configuration file anywhere and no parent
directories. -/
def missingEverywhereFs : FileSystem :=
  { config_name := "rome.json", working_directory := some [],
    open_read := fun _ => OpenOutcome.failed ErrorKind.notFound,
    is_dir := fun _ => false }

/-- C1 witness: an empty tree under a `None` base path resolves to the
successful "no configuration found". -/
theorem load_config_failure_classification_witness :
    load_config missingEverywhereFs ConfigurationBasePath.none = Except.ok Option.none := by
  have hterm : finalOpenError missingEverywhereFs ConfigurationBasePath.none =
      some ErrorKind.notFound := by
    show finalOpenErrorLoop missingEverywhereFs ConfigurationBasePath.none [] = _
    rw [finalOpenErrorLoop.eq_def]
    simp [missingEverywhereFs]
  exact (load_config_failure_classification missingEverywhereFs ConfigurationBasePath.none
    ErrorKind.notFound hterm).2.mpr ⟨rfl, rfl⟩

/-- C2: with a `FromUser` base path the search never ascends: a failed
open at the single candidate path, whatever the error kind, is the fatal
cannot-read-file error naming exactly that path — whatever the rest of
the file system holds. -/
theorem load_config_from_user_no_ascent (fs : FileSystem) (path : List String) (err : ErrorKind)
    (h : fs.open_read (path ++ [fs.config_name]) = OpenOutcome.failed err) :
    load_config fs (ConfigurationBasePath.fromUser path) =
      Except.error (WorkspaceError.cantReadFile (path ++ [fs.config_name])) := by
  show loadConfigLoop fs (ConfigurationBasePath.fromUser path) path = _
  rw [loadConfigLoop.eq_def, h]
  simp [ConfigurationBasePath.is_from_user]

/-- A file system holding a valid configuration file one directory above
the requested base path. -/
def parentHasConfigFs : FileSystem :=
  { config_name := "rome.json", working_directory := some ["a", "b"],
    open_read := fun p =>
      if p = ["a", "rome.json"] then OpenOutcome.opened (Except.ok (Json.obj []))
      else OpenOutcome.failed ErrorKind.notFound,
    is_dir := fun _ => true }

/-- C2 witness: `FromUser` on a directory without the file errors even
though the parent directory holds a valid configuration. -/
theorem load_config_from_user_no_ascent_witness :
    parentHasConfigFs.open_read ["a", "rome.json"] =
      OpenOutcome.opened (Except.ok (Json.obj [])) ∧
    load_config parentHasConfigFs (ConfigurationBasePath.fromUser ["a", "b"]) =
      Except.error (WorkspaceError.cantReadFile ["a", "b", "rome.json"]) := by
  refine ⟨rfl, ?_⟩
  exact load_config_from_user_no_ascent parentHasConfigFs ["a", "b"] ErrorKind.notFound rfl

/-- A file system that denies reading the configuration file in the
starting directory but exposes a valid one at the root. -/
def ascentTolerantFs : FileSystem :=
  { config_name := "rome.json", working_directory := some [],
    open_read := fun p =>
      if p = ["rome.json"] then OpenOutcome.opened (Except.ok (Json.obj []))
      else OpenOutcome.failed ErrorKind.permissionDenied,
    is_dir := fun _ => true }

/-- C3 counterexample: a permissions error mid-ascent under a
non-`FromUser` base path is NOT fatal — the search ascends past it and
succeeds on the configuration found at the root, contradicting the
claim that the search stops immediately with a cannot-read-file error. -/
theorem ascent_error_not_fatal_counterexample :
    ascentTolerantFs.open_read ["d", "rome.json"] =
      OpenOutcome.failed ErrorKind.permissionDenied ∧
    load_config ascentTolerantFs (ConfigurationBasePath.lsp ["d"]) =
      Except.ok (some { value := Configuration.default, diagnostics := [] }) := by
  constructor
  · simp [ascentTolerantFs]
  · show loadConfigLoop ascentTolerantFs (ConfigurationBasePath.lsp ["d"]) ["d"] = _
    rw [loadConfigLoop.eq_def]
    simp only [ascentTolerantFs, ConfigurationBasePath.is_from_user]
    norm_num
    rw [loadConfigLoop.eq_def]
    simp [ascentTolerantFs, deserializeConfiguration, Configuration.default]

/-- C3 amended: under a non-`FromUser` base path an open failure of any
kind — `NotFound` or not — continues the ascent while a parent directory
exists and is a directory; a non-`NotFound` error is fatal only when it
occurs at the last directory of the ascent (no usable parent), and then
the cannot-read-file error names that final candidate path. -/
theorem ascent_continues_on_any_error (fs : FileSystem) (base_path : ConfigurationBasePath)
    (dir : List String) (err : ErrorKind) :
    (base_path.is_from_user = false →
      fs.open_read (dir ++ [fs.config_name]) = OpenOutcome.failed err →
      dir ≠ [] →
      fs.is_dir dir.dropLast = true →
      loadConfigLoop fs base_path dir = loadConfigLoop fs base_path dir.dropLast) ∧
    (fs.open_read (dir ++ [fs.config_name]) = OpenOutcome.failed err →
      (dir = [] ∨ fs.is_dir dir.dropLast = false) →
      err ≠ ErrorKind.notFound →
      loadConfigLoop fs base_path dir =
        Except.error (WorkspaceError.cantReadFile (dir ++ [fs.config_name]))) := by
  constructor
  · intro hfu hopen hne hdir
    rw [loadConfigLoop.eq_def, hopen]
    dsimp only
    rw [dif_pos ⟨hfu, hne, hdir⟩]
  · intro hopen hstop herr
    rw [loadConfigLoop.eq_def, hopen]
    dsimp only
    have hcond : ¬(base_path.is_from_user = false ∧ dir ≠ [] ∧
        fs.is_dir dir.dropLast = true) := by
      rcases hstop with h | h
      · exact fun hc => hc.2.1 h
      · exact fun hc => by
          rw [h] at hc
          exact Bool.false_ne_true hc.2.2
    rw [dif_neg hcond, if_pos (Or.inr herr)]

/-- A file system denying every open at the root of the tree. -/
def permissionRootFs : FileSystem :=
  { config_name := "rome.json", working_directory := some [],
    open_read := fun _ => OpenOutcome.failed ErrorKind.permissionDenied,
    is_dir := fun _ => false }

/-- C3 amended witness: the permission failure at `["d"]` continues to
the parent, and the same failure with no parent left is fatal. -/
theorem ascent_continues_on_any_error_witness :
    loadConfigLoop ascentTolerantFs (ConfigurationBasePath.lsp ["d"]) ["d"] =
      loadConfigLoop ascentTolerantFs (ConfigurationBasePath.lsp ["d"]) [] ∧
    loadConfigLoop permissionRootFs ConfigurationBasePath.none [] =
      Except.error (WorkspaceError.cantReadFile ["rome.json"]) := by
  constructor
  · exact (ascent_continues_on_any_error ascentTolerantFs (ConfigurationBasePath.lsp ["d"])
      ["d"] ErrorKind.permissionDenied).1 rfl (by simp [ascentTolerantFs]) (by decide) rfl
  · exact (ascent_continues_on_any_error permissionRootFs ConfigurationBasePath.none
      [] ErrorKind.permissionDenied).2 rfl (Or.inl rfl) (by decide)

/-! ## Lemmas about the strict deserializer -/

theorem foldl_configurationStep_diag_mono (kvs : List (String × Json)) :
    ∀ (acc : Configuration × List DeserializationDiagnostic) (d : DeserializationDiagnostic),
      d ∈ acc.2 → d ∈ (kvs.foldl configurationStep acc).2 := by
  induction kvs with
  | nil => intro acc d h; exact h
  | cons kv rest ih =>
      intro acc d h
      exact ih _ d (List.mem_append_left _ h)

theorem key_diag_in_foldl (kvs : List (String × Json)) (k : String) (v : Json)
    (d : DeserializationDiagnostic) :
    ∀ acc, (k, v) ∈ kvs → (∀ c, d ∈ (configurationKey c k v).2) →
      d ∈ (kvs.foldl configurationStep acc).2 := by
  induction kvs with
  | nil =>
      intro acc h _
      exact absurd h (List.not_mem_nil _)
  | cons kv rest ih =>
      intro acc hmem hd
      rcases List.mem_cons.mp hmem with heq | htail
      · subst heq
        exact foldl_configurationStep_diag_mono rest _ d
          (List.mem_append_right _ (hd acc.1))
      · exact ih _ htail hd

theorem foldl_filesStep_diag_mono (kvs : List (String × Json)) :
    ∀ (acc : FilesConfiguration × List DeserializationDiagnostic) (d : DeserializationDiagnostic),
      d ∈ acc.2 → d ∈ (kvs.foldl filesStep acc).2 := by
  induction kvs with
  | nil => intro acc d h; exact h
  | cons kv rest ih =>
      intro acc d h
      exact ih _ d (List.mem_append_left _ h)

theorem key_diag_in_files_foldl (kvs : List (String × Json)) (k : String) (v : Json)
    (d : DeserializationDiagnostic) :
    ∀ acc, (k, v) ∈ kvs → (∀ fc, d ∈ (filesKey fc k v).2) →
      d ∈ (kvs.foldl filesStep acc).2 := by
  induction kvs with
  | nil =>
      intro acc h _
      exact absurd h (List.not_mem_nil _)
  | cons kv rest ih =>
      intro acc hmem hd
      rcases List.mem_cons.mp hmem with heq | htail
      · subst heq
        exact foldl_filesStep_diag_mono rest _ d (List.mem_append_right _ (hd acc.1))
      · exact ih _ htail hd

theorem configurationKey_unknown (c : Configuration) (k : String) (v : Json)
    (h : ¬ k ∈ configurationKnownKeys) :
    configurationKey c k v = (c, [DeserializationDiagnostic.unknownKey k]) := by
  simp only [configurationKnownKeys, List.mem_cons, List.not_mem_nil, or_false, not_or] at h
  obtain ⟨h1, h2, h3, h4, h5, h6⟩ := h
  simp [configurationKey, h1, h2, h3, h4, h5, h6]

theorem filesKey_unknown (fc : FilesConfiguration) (k : String) (v : Json)
    (h : ¬ k ∈ filesConfigurationKnownKeys) :
    filesKey fc k v = (fc, [DeserializationDiagnostic.unknownKey k]) := by
  simp only [filesConfigurationKnownKeys, List.mem_cons, List.not_mem_nil, or_false,
    not_or] at h
  obtain ⟨h1, h2⟩ := h
  simp [filesKey, h1, h2]

/-- C6: any top-level key outside the recognized set, and any key of the
files record outside its recognized set, makes deserialization fail with
an unknown-key diagnostic naming that key, whatever the sibling keys
hold. -/
theorem unknown_keys_rejected (kvs : List (String × Json)) (k : String) (v : Json)
    (fkvs : List (String × Json)) (fk : String) (fv : Json) :
    ((k, v) ∈ kvs → ¬ k ∈ configurationKnownKeys →
      DeserializationDiagnostic.unknownKey k ∈
        (deserializeConfiguration (Json.obj kvs)).diagnostics ∧
      (deserializeConfiguration (Json.obj kvs)).has_errors = true) ∧
    (("files", Json.obj fkvs) ∈ kvs → (fk, fv) ∈ fkvs →
      ¬ fk ∈ filesConfigurationKnownKeys →
      DeserializationDiagnostic.unknownKey fk ∈
        (deserializeConfiguration (Json.obj kvs)).diagnostics ∧
      (deserializeConfiguration (Json.obj kvs)).has_errors = true) := by
  have herr : ∀ (d : DeserializationDiagnostic),
      d ∈ (deserializeConfiguration (Json.obj kvs)).diagnostics →
      (deserializeConfiguration (Json.obj kvs)).has_errors = true := by
    intro d hd
    rcases hl : (deserializeConfiguration (Json.obj kvs)).diagnostics with _ | ⟨a, t⟩
    · rw [hl] at hd
      exact absurd hd (List.not_mem_nil _)
    · simp [Deserialized.has_errors, hl]
  constructor
  · intro hmem hk
    have hd : DeserializationDiagnostic.unknownKey k ∈
        (deserializeConfiguration (Json.obj kvs)).diagnostics := by
      show DeserializationDiagnostic.unknownKey k ∈
        (kvs.foldl configurationStep (Configuration.default, [])).2
      refine key_diag_in_foldl kvs k v _ _ hmem ?_
      intro c
      rw [configurationKey_unknown c k v hk]
      exact List.mem_singleton.mpr rfl
    exact ⟨hd, herr _ hd⟩
  · intro hfiles hfmem hfk
    have hsub : DeserializationDiagnostic.unknownKey fk ∈
        (deserializeFilesConfiguration (Json.obj fkvs)).2 := by
      show DeserializationDiagnostic.unknownKey fk ∈
        (fkvs.foldl filesStep (FilesConfiguration.default, [])).2
      refine key_diag_in_files_foldl fkvs fk fv _ _ hfmem ?_
      intro fc
      rw [filesKey_unknown fc fk fv hfk]
      exact List.mem_singleton.mpr rfl
    have hd : DeserializationDiagnostic.unknownKey fk ∈
        (deserializeConfiguration (Json.obj kvs)).diagnostics := by
      show DeserializationDiagnostic.unknownKey fk ∈
        (kvs.foldl configurationStep (Configuration.default, [])).2
      refine key_diag_in_foldl kvs "files" (Json.obj fkvs) _ _ hfiles ?_
      intro c
      simpa [configurationKey] using hsub
    exact ⟨hd, herr _ hd⟩

/-- C6 witness: a configuration document carrying the unknown top-level
key "lint" and the unknown files key "Ignore" beside valid siblings. -/
theorem unknown_keys_rejected_witness :
    ¬ ("lint" : String) ∈ configurationKnownKeys ∧
    DeserializationDiagnostic.unknownKey "lint" ∈
      (deserializeConfiguration (Json.obj
        [("lint", Json.null), ("files", Json.obj [("Ignore", Json.null)])])).diagnostics ∧
    DeserializationDiagnostic.unknownKey "Ignore" ∈
      (deserializeConfiguration (Json.obj
        [("lint", Json.null), ("files", Json.obj [("Ignore", Json.null)])])).diagnostics := by
  have h := unknown_keys_rejected
    [("lint", Json.null), ("files", Json.obj [("Ignore", Json.null)])]
    "lint" Json.null [("Ignore", Json.null)] "Ignore" Json.null
  refine ⟨by decide, ?_, ?_⟩
  · exact (h.1 (List.mem_cons_self _ _) (by decide)).1
  · exact (h.2 (List.mem_cons_of_mem _ (List.mem_cons_self _ _))
      (List.mem_cons_self _ _) (by decide)).1

/-! ## Round-trip lemmas: serialization then strict deserialization -/

theorem files_round_trip (fc : FilesConfiguration)
    (h : ∀ l, fc.ignore = some l → l.Nodup) :
    deserializeFilesConfiguration (serializeFilesConfiguration fc) = (fc, []) := by
  obtain ⟨ms, ig⟩ := fc
  cases ms with
  | none =>
      cases ig with
      | none => rfl
      | some l =>
          have hl : l.Nodup := h l rfl
          simp [serializeFilesConfiguration, deserializeFilesConfiguration, filesStep,
            filesKey, optMember, serialize_ignore_field, serialize_set_of_strings,
            deserialize_set_of_strings, visitSeqElements_strings, foldl_indexSetInsert_nil,
            firstSeen_of_nodup l hl, FilesConfiguration.default, Except.map]
  | some nz =>
      obtain ⟨n, hn⟩ := nz
      cases ig with
      | none =>
          simp [serializeFilesConfiguration, deserializeFilesConfiguration, filesStep,
            filesKey, optMember, serialize_ignore_field, FilesConfiguration.default, hn]
      | some l =>
          have hl : l.Nodup := h l rfl
          simp [serializeFilesConfiguration, deserializeFilesConfiguration, filesStep,
            filesKey, optMember, serialize_ignore_field, serialize_set_of_strings,
            deserialize_set_of_strings, visitSeqElements_strings, foldl_indexSetInsert_nil,
            firstSeen_of_nodup l hl, FilesConfiguration.default, Except.map, hn]

theorem formatter_round_trip (f : FormatterConfiguration) :
    deserializeFormatterConfiguration (serializeFormatterConfiguration f) = (f, []) := by
  obtain ⟨e, st, sz, lw⟩ := f
  cases st <;> rfl

theorem linter_round_trip (l : LinterConfiguration) :
    deserializeLinterConfiguration (serializeLinterConfiguration l) = (l, []) := by
  obtain ⟨e⟩ := l
  rfl

theorem organize_imports_round_trip (o : OrganizeImports) :
    deserializeOrganizeImports (serializeOrganizeImports o) = (o, []) := by
  obtain ⟨e⟩ := o
  rfl

theorem javascript_formatter_round_trip (f : JavascriptFormatter) :
    deserializeJavascriptFormatter (serializeJavascriptFormatter f) = (f, []) := by
  obtain ⟨qp, qs, tc, sc⟩ := f
  cases qp <;> cases qs <;> cases tc <;> cases sc <;> rfl

theorem javascript_round_trip (jc : JavascriptConfiguration) :
    deserializeJavascriptConfiguration (serializeJavascriptConfiguration jc) = (jc, []) := by
  obtain ⟨fo⟩ := jc
  cases fo with
  | none => rfl
  | some f =>
      simp [serializeJavascriptConfiguration, deserializeJavascriptConfiguration,
        javascriptStep, javascriptKey, optMember, javascript_formatter_round_trip,
        JavascriptConfiguration.default]

theorem foldl_member_schema (acc : Configuration × List DeserializationDiagnostic)
    (o : Option String) :
    List.foldl configurationStep acc (optMember "$schema" (o.map Json.str)) =
      ((match o with
        | some s => { acc.1 with schema := some s }
        | Option.none => acc.1), acc.2) := by
  cases o <;> simp [optMember, configurationStep, configurationKey]

theorem foldl_member_files (acc : Configuration × List DeserializationDiagnostic)
    (o : Option FilesConfiguration)
    (h : ∀ fc l, o = some fc → fc.ignore = some l → l.Nodup) :
    List.foldl configurationStep acc (optMember "files" (o.map serializeFilesConfiguration)) =
      ((match o with
        | some fc => { acc.1 with files := some fc }
        | Option.none => acc.1), acc.2) := by
  cases o with
  | none => simp [optMember]
  | some fc =>
      have hrt := files_round_trip fc (fun l hl => h fc l rfl hl)
      simp [optMember, configurationStep, configurationKey, hrt]

theorem foldl_member_formatter (acc : Configuration × List DeserializationDiagnostic)
    (o : Option FormatterConfiguration) :
    List.foldl configurationStep acc
        (optMember "formatter" (o.map serializeFormatterConfiguration)) =
      ((match o with
        | some f => { acc.1 with formatter := some f }
        | Option.none => acc.1), acc.2) := by
  cases o with
  | none => simp [optMember]
  | some f =>
      simp [optMember, configurationStep, configurationKey, formatter_round_trip]

theorem foldl_member_organize_imports (acc : Configuration × List DeserializationDiagnostic)
    (o : Option OrganizeImports) :
    List.foldl configurationStep acc
        (optMember "organizeImports" (o.map serializeOrganizeImports)) =
      ((match o with
        | some oi => { acc.1 with organize_imports := some oi }
        | Option.none => acc.1), acc.2) := by
  cases o with
  | none => simp [optMember]
  | some oi =>
      simp [optMember, configurationStep, configurationKey, organize_imports_round_trip]

theorem foldl_member_linter (acc : Configuration × List DeserializationDiagnostic)
    (o : Option LinterConfiguration) :
    List.foldl configurationStep acc
        (optMember "linter" (o.map serializeLinterConfiguration)) =
      ((match o with
        | some l => { acc.1 with linter := some l }
        | Option.none => acc.1), acc.2) := by
  cases o with
  | none => simp [optMember]
  | some l =>
      simp [optMember, configurationStep, configurationKey, linter_round_trip]

theorem foldl_member_javascript (acc : Configuration × List DeserializationDiagnostic)
    (o : Option JavascriptConfiguration) :
    List.foldl configurationStep acc
        (optMember "javascript" (o.map serializeJavascriptConfiguration)) =
      ((match o with
        | some j => { acc.1 with javascript := some j }
        | Option.none => acc.1), acc.2) := by
  cases o with
  | none => simp [optMember]
  | some j =>
      simp [optMember, configurationStep, configurationKey, javascript_round_trip]

theorem configuration_round_trip (c : Configuration)
    (h : ∀ fc l, c.files = some fc → fc.ignore = some l → l.Nodup) :
    deserializeConfiguration (serializeConfiguration c) =
      { value := { c with
          organize_imports := some (c.organize_imports.getD { enabled := false }),
          linter := some (c.linter.getD { enabled := true }) },
        diagnostics := [] } := by
  simp only [serializeConfiguration, deserializeConfiguration]
  rw [List.foldl_append, List.foldl_append, List.foldl_append, List.foldl_append,
    List.foldl_append]
  rw [foldl_member_schema, foldl_member_files _ _ h, foldl_member_formatter,
    foldl_member_organize_imports, foldl_member_linter, foldl_member_javascript]
  obtain ⟨cs, cf, cfm, coi, cl, cj⟩ := c
  cases cs <;> cases cf <;> cases cfm <;> cases coi <;> cases cl <;> cases cj <;> rfl

/-- C9: writing a configuration with `create_config` and then
discovering and deserializing it from the same root yields a value whose
every explicitly set field equals the original (the schema field aside,
which the writer may inject), with no diagnostics. -/
theorem create_then_load_round_trip (fs : WriteFileSystem) (c : Configuration)
    (hfree : fs.store [fs.config_name] = Option.none)
    (hnodup : ∀ fc l, c.files = some fc → fc.ignore = some l → l.Nodup) :
    ∃ d : Deserialized,
      (create_config fs c).1 = Except.ok () ∧
      load_config (readFileSystemOf (create_config fs c).2) ConfigurationBasePath.none =
        Except.ok (some d) ∧
      d.diagnostics = [] ∧
      (∀ fc, c.files = some fc → d.value.files = some fc) ∧
      (∀ f, c.formatter = some f → d.value.formatter = some f) ∧
      (∀ o, c.organize_imports = some o → d.value.organize_imports = some o) ∧
      (∀ l, c.linter = some l → d.value.linter = some l) ∧
      (∀ j, c.javascript = some j → d.value.javascript = some j) := by
  have hopen : openCreateNew fs.store [fs.config_name] = Except.ok () := by
    simp [openCreateNew, hfree]
  have key : ∀ cc : Configuration,
      create_config fs c =
        (Except.ok (), ⟨fs.config_name,
          storeWrite fs.store [fs.config_name] (serializeConfiguration cc)⟩) →
      cc.files = c.files → cc.formatter = c.formatter →
      cc.organize_imports = c.organize_imports → cc.linter = c.linter →
      cc.javascript = c.javascript →
      ∃ d : Deserialized,
        (create_config fs c).1 = Except.ok () ∧
        load_config (readFileSystemOf (create_config fs c).2) ConfigurationBasePath.none =
          Except.ok (some d) ∧
        d.diagnostics = [] ∧
        (∀ fc, c.files = some fc → d.value.files = some fc) ∧
        (∀ f, c.formatter = some f → d.value.formatter = some f) ∧
        (∀ o, c.organize_imports = some o → d.value.organize_imports = some o) ∧
        (∀ l, c.linter = some l → d.value.linter = some l) ∧
        (∀ j, c.javascript = some j → d.value.javascript = some j) := by
    intro cc hcreate hfi hfo hoi hli hja
    have hload : load_config (readFileSystemOf (create_config fs c).2)
        ConfigurationBasePath.none =
        Except.ok (some (deserializeConfiguration (serializeConfiguration cc))) := by
      rw [hcreate]
      show loadConfigLoop _ ConfigurationBasePath.none [] = _
      rw [loadConfigLoop.eq_def]
      simp [readFileSystemOf, storeWrite]
    rw [configuration_round_trip cc (fun fc l hfc hl => hnodup fc l (hfi ▸ hfc) hl)] at hload
    refine ⟨_, by rw [hcreate], hload, rfl, ?_, ?_, ?_, ?_, ?_⟩
    · intro fc hfc
      exact hfi.trans hfc
    · intro f hf
      exact hfo.trans hf
    · intro o ho
      rw [hoi, ho]
      rfl
    · intro l hl
      rw [hli, hl]
      rfl
    · intro j hj
      exact hja.trans hj
  by_cases hp : (fs.store schemaPath).isSome
  · refine key { c with schema := some schemaRef } ?_ rfl rfl rfl rfl rfl
    simp [create_config, hopen, hp]
  · refine key c ?_ rfl rfl rfl rfl rfl
    simp [create_config, hopen, hp]

/-- A files block with a positive size limit and a duplicate-free ignore
set. -/
def sampleFiles : FilesConfiguration :=
  { max_size := some ⟨1024, by decide⟩, ignore := some ["dist", "build"] }

/-- The default configuration extended with the sample files block. -/
def sampleConfiguration : Configuration :=
  { Configuration.default with files := some sampleFiles }

/-- A writable file system with an empty store. -/
def freshFileSystem : WriteFileSystem :=
  { config_name := "rome.json", store := fun _ => Option.none }

/-- C9 witness: the sample configuration written into the empty store
and discovered back. -/
theorem create_then_load_round_trip_witness :
    ∃ d : Deserialized,
      (create_config freshFileSystem sampleConfiguration).1 = Except.ok () ∧
      load_config (readFileSystemOf (create_config freshFileSystem sampleConfiguration).2)
        ConfigurationBasePath.none = Except.ok (some d) ∧
      d.diagnostics = [] ∧
      (∀ fc, sampleConfiguration.files = some fc → d.value.files = some fc) ∧
      (∀ f, sampleConfiguration.formatter = some f → d.value.formatter = some f) ∧
      (∀ o, sampleConfiguration.organize_imports = some o →
        d.value.organize_imports = some o) ∧
      (∀ l, sampleConfiguration.linter = some l → d.value.linter = some l) ∧
      (∀ j, sampleConfiguration.javascript = some j → d.value.javascript = some j) := by
  refine create_then_load_round_trip freshFileSystem sampleConfiguration rfl ?_
  intro fc l hfc hl
  have h1 := Option.some.inj hfc
  subst h1
  have h2 := Option.some.inj hl
  subst h2
  decide

end Rome
